import Mathlib

/-!
Shallow embedding of the bot-hosting control plane in `src/app.js`.

The service keeps three pieces of state:
* the Bot Record Store, the JSON object persisted in `bots.json`
  (`loadBots` / `saveBots`), modelled as an association list from bot id
  to record;
* the Process Registry, the in-memory `runningProcesses` object, modelled
  by its key set as a list of ids (the process handles themselves are
  opaque and only their presence is ever consulted);
* the set of uploaded script files on disk, modelled as a list of paths
  (only existence is ever consulted: `fs.existsSync` / `fs.unlinkSync`).

Each HTTP handler becomes a pure function from state to a result paired
with the successor state; handlers that answer without mutating anything
return only the result.  Timestamps (`Date.now()`, `new Date().toISOString()`)
are passed in as explicit parameters.

Two property-read semantics appear side by side.  `lookupBot`/`regHas`
give the own-key view of `bots[botId]` and `runningProcesses[botId]`,
which is exact on every id that carries a Record (in particular every id
the upload derives).  `botsTruthy`/`procsTruthy` and the `...Js`
operation variants model full JavaScript truthiness, where inherited
`Object.prototype` members (`constructor`, `toString`, `__proto__`,
...) are truthy and defeat the NotFound guards; `uploadBotJs` likewise
models the multer storage stage, whose destination callback can throw
before the handler's validation ever runs.
-/

set_option autoImplicit false

namespace BotHost

/-- Whitespace as matched by the regular expression class used in
`filename` (line 53 of app.js): space, tab, newline, carriage return,
vertical tab, form feed.  (JS `\s` also matches some Unicode spaces;
the ASCII core suffices for this development.) -/
def isWsChar (c : Char) : Bool :=
  c = ' ' || c = '\t' || c = '\n' || c = '\r' || c = '\x0b' || c = '\x0c'

/-- One pass of `.replace(/\s+/g, '_')`: every maximal run of whitespace
characters becomes a single underscore.  The boolean records whether the
previous character was part of a whitespace run. -/
def squashAux : Bool → List Char → List Char
  | _, [] => []
  | prevWs, c :: cs =>
    if isWsChar c then
      if prevWs then squashAux true cs
      else '_' :: squashAux true cs
    else c :: squashAux false cs

/-- The string operation `s.replace(/\s+/g, '_')` from line 53 of app.js. -/
def squashWs (s : String) : String :=
  String.mk (squashAux false s.data)

/-- The decimal digit character for `n < 10`. -/
def digitChar (n : Nat) : Char :=
  Char.ofNat (48 + n)

/-- Fuel-driven base-10 rendering of a natural number, most significant
digit first; `natToCharList` supplies enough fuel for the recursion to
finish. -/
def natToCharListAux : Nat → Nat → List Char
  | 0, _ => []
  | fuel + 1, n =>
    if n < 10 then [digitChar n]
    else natToCharListAux fuel (n / 10) ++ [digitChar (n % 10)]

/-- The decimal digits of `n`, as produced by JavaScript number-to-string
conversion of the non-negative integer `Date.now()`. -/
def natToCharList (n : Nat) : List Char :=
  natToCharListAux (n + 1) n

/-- String form of `natToCharList`. -/
def natToString (n : Nat) : String :=
  String.mk (natToCharList n)

/-- `path.extname`: the part of the name from its last dot to the end,
or the empty string when there is no dot or the only dot is the leading
character (a dotfile).  The embedded names never contain a path
separator, so directory handling is irrelevant here. -/
def extname (s : String) : String :=
  let cs := s.data
  let revTail := cs.reverse.takeWhile (fun c => decide (c ≠ '.'))
  if revTail.length + 1 ≥ cs.length then ""
  else "." ++ String.mk revTail.reverse

/-- Drop a known suffix from a character list: the effect of
`path.basename(name, ext)` on a bare file name (no separators), which
removes `ext` when the name ends in it and is not `ext` itself. -/
def stripSuffixList (l suf : List Char) : List Char :=
  if suf.length ≤ l.length ∧ suf ≠ [] ∧ l ≠ suf ∧
      l.drop (l.length - suf.length) = suf
  then l.take (l.length - suf.length) else l

/-- `path.basename(s, ext)` for a bare file name. -/
def stripExt (s ext : String) : String :=
  String.mk (stripSuffixList s.data ext.data)

/-- `s.substring(1)`, used at line 102 of app.js to turn an extension
`.py` into the `file_type` value `py`. -/
def dropDot (s : String) : String :=
  String.mk (s.data.drop 1)

/-- The bot id derived by the multer `filename` callback (line 53):
the template `{username}_{bot_name}_{Date.now()}` with every whitespace
run replaced by an underscore. -/
def makeBotId (username botName : String) (ts : Nat) : String :=
  squashWs (username ++ "_" ++ botName ++ "_" ++ natToString ts)

/-- One persisted bot record, the value stored under a bot id in
`bots.json` (lines 105-115 of app.js).  `started_at` and `stopped_at`
are absent until the first start/stop, hence optional. -/
structure BotRecord where
  id : String
  name : String
  username : String
  file_path : String
  file_type : String
  status : String
  created_at : String
  started_at : Option String
  stopped_at : Option String
  cpu : Nat
  memory : Nat
deriving DecidableEq, Repr

/-- The error outcomes the handlers distinguish.  `Internal` is an
exception raised inside a route handler and caught by its try/catch
(the catch-all 500 response); `Thrown` is an exception raised in the
multer storage callbacks, before the upload handler runs, which
escapes the handler's try/catch entirely. -/
inductive ApiError where
  | NotFound
  | AlreadyRunning
  | NotRunning
  | ValidationError
  | Internal
  | Thrown
deriving DecidableEq, Repr

/-- The HTTP status code each error is reported with in app.js
(`Thrown` produces no handler response; 500 stands in for the
failed request). -/
def httpStatus : ApiError → Nat
  | .NotFound => 404
  | .AlreadyRunning => 400
  | .NotRunning => 400
  | .ValidationError => 400
  | .Internal => 500
  | .Thrown => 500

/-- The uploaded file as the multer callbacks see it: only its original
client-side name matters (for the extension). -/
structure UploadFile where
  originalname : String
deriving DecidableEq, Repr

/-- Whole-service state: record store (bots.json), process registry key
set (runningProcesses), and the set of script files on disk. -/
structure SysState where
  store : List (String × BotRecord)
  registry : List String
  disk : List String
deriving DecidableEq, Repr

/-- The own-key part of `bots[botId]`: the record stored under the id,
if any.  A JavaScript property read also sees the inherited
`Object.prototype` members; `botsTruthy` models the full truthiness
test the guards perform. -/
def lookupBot : List (String × BotRecord) → String → Option BotRecord
  | [], _ => none
  | (k, r) :: rest, id => if k = id then some r else lookupBot rest id

/-- `bots[botId] = r`: replace the entry at the key if present, append
otherwise. -/
def storeSet : List (String × BotRecord) → String → BotRecord → List (String × BotRecord)
  | [], id, r => [(id, r)]
  | (k, v) :: rest, id, r =>
    if k = id then (id, r) :: rest else (k, v) :: storeSet rest id r

/-- `delete bots[botId]`. -/
def storeRemove : List (String × BotRecord) → String → List (String × BotRecord)
  | [], _ => []
  | (k, v) :: rest, id =>
    if k = id then storeRemove rest id else (k, v) :: storeRemove rest id

/-- The own-key part of `runningProcesses[botId]`: whether a spawned
handle is registered under the id.  `procsTruthy` models the full
JavaScript truthiness of that read. -/
def regHas : List String → String → Bool
  | [], _ => false
  | x :: rest, id => if x = id then true else regHas rest id

/-- `delete runningProcesses[botId]`. -/
def regRemove : List String → String → List String
  | [], _ => []
  | x :: rest, id =>
    if x = id then regRemove rest id else x :: regRemove rest id

/-- `fs.existsSync(p)` restricted to the modelled script files. -/
def diskHas : List String → String → Bool
  | [], _ => false
  | x :: rest, p => if x = p then true else diskHas rest p

/-- `fs.unlinkSync(p)` (a no-op when the path is absent, matching the
`existsSync` guard at line 219). -/
def diskRemove : List String → String → List String
  | [], _ => []
  | x :: rest, p =>
    if x = p then diskRemove rest p else x :: diskRemove rest p

/-- The interpreter choice at line 144 of app.js:
`bot.file_type === 'py' ? 'python3' : 'node'`. -/
def interpreterFor (bot : BotRecord) : String :=
  if bot.file_type = "py" then "python3" else "node"

/-- The name under which multer stores the file (lines 52-56): the
derived bot id plus the original extension. -/
def uploadFilename (u n : String) (ts : Nat) (f : UploadFile) : String :=
  makeBotId u n ts ++ extname f.originalname

/-- `file.path`: the per-owner directory joined with the stored name. -/
def uploadFilepath (u n : String) (ts : Nat) (f : UploadFile) : String :=
  "user_bots/" ++ u ++ "/" ++ uploadFilename u n ts f

/-- The bot id recovered by the handler at line 101:
`path.basename(file.filename, path.extname(file.filename))`. -/
def uploadBotIdOf (u n : String) (ts : Nat) (f : UploadFile) : String :=
  stripExt (uploadFilename u n ts f) (extname (uploadFilename u n ts f))

/-- The record created at lines 105-115. -/
def uploadRecordOf (u n : String) (ts : Nat) (f : UploadFile)
    (now : String) : BotRecord :=
  { id := uploadBotIdOf u n ts f
    name := n
    username := u
    file_path := uploadFilepath u n ts f
    file_type := dropDot (extname (uploadFilename u n ts f))
    status := "stopped"
    created_at := now
    started_at := none
    stopped_at := none
    cpu := 0
    memory := 0 }

/-- POST `/api/bot/upload` (lines 89-127) together with the multer
storage callbacks (lines 43-57).  `username` and `botName` are the
multipart text fields (absent or empty strings are falsy in the
handler's check at line 94), `file` the uploaded file if any, `ts` the
`Date.now()` value seen by the filename callback, `now` the
`toISOString()` creation time.  On success returns the new bot id. -/
def uploadBot (username botName : Option String) (file : Option UploadFile)
    (ts : Nat) (now : String) (st : SysState) :
    Except ApiError String × SysState :=
  match username, botName, file with
  | some u, some n, some f =>
    if u = "" ∨ n = "" then (.error .ValidationError, st)
    else
      (.ok (uploadBotIdOf u n ts f),
       { store := storeSet st.store (uploadBotIdOf u n ts f)
           (uploadRecordOf u n ts f now)
         registry := st.registry
         disk := uploadFilepath u n ts f :: st.disk })
  | _, _, _ => (.error .ValidationError, st)

/-- POST `/api/bot/start/:botId` (lines 130-171), with the two guards
read as own-key tests: exact on ids carrying a Record, where JS
truthiness and own-key lookup agree (`startBotJs` keeps the full
prototype-chain truthiness).  On success the returned string is the
spawned interpreter command. -/
def startBot (botId now : String) (st : SysState) :
    Except ApiError String × SysState :=
  match lookupBot st.store botId with
  | none => (.error .NotFound, st)
  | some bot =>
    if regHas st.registry botId then (.error .AlreadyRunning, st)
    else
      (.ok (interpreterFor bot),
       { store := storeSet st.store botId
           { bot with status := "running", started_at := some now }
         registry := botId :: st.registry
         disk := st.disk })

/-- The `close` observer registered at lines 156-159: unconditionally
deletes the id from the process registry and touches nothing else. -/
def exitObserver (botId : String) (st : SysState) : SysState :=
  { st with registry := regRemove st.registry botId }

/-- POST `/api/bot/stop/:botId` (lines 174-199), guards read as
own-key tests (see `stopBotJs` for full truthiness). -/
def stopBot (botId now : String) (st : SysState) :
    Except ApiError Unit × SysState :=
  match lookupBot st.store botId with
  | none => (.error .NotFound, st)
  | some bot =>
    if regHas st.registry botId then
      (.ok (),
       { store := storeSet st.store botId
           { bot with status := "stopped", stopped_at := some now }
         registry := regRemove st.registry botId
         disk := st.disk })
    else (.error .NotRunning, st)

/-- DELETE `/api/bot/delete/:botId` (lines 202-230): kill and deregister
when running, unlink the backing file when present, drop the record.
Guards read as own-key tests (see `deleteBotJs` for full truthiness). -/
def deleteBot (botId : String) (st : SysState) :
    Except ApiError Unit × SysState :=
  match lookupBot st.store botId with
  | none => (.error .NotFound, st)
  | some bot =>
    (.ok (),
     { store := storeRemove st.store botId
       registry := regRemove st.registry botId
       disk := diskRemove st.disk bot.file_path })

/-- GET `/api/bot/status/:botId` (lines 258-279): liveness read from the
process registry, cpu/memory from the record.  Never mutates state.
Reads as own-key tests (see `statusBotJs` for full truthiness). -/
def statusBot (botId : String) (st : SysState) :
    Except ApiError (String × Nat × Nat) :=
  match lookupBot st.store botId with
  | none => .error .NotFound
  | some bot =>
    .ok (if regHas st.registry botId then "running" else "stopped",
         bot.cpu, bot.memory)

/-- GET `/api/bot/logs/:botId` (lines 233-255): a synthesized summary
string, not captured process output.  Never mutates state.  Reads as
own-key tests (see `logsBotJs` for full truthiness). -/
def logsBot (botId : String) (st : SysState) : Except ApiError String :=
  match lookupBot st.store botId with
  | none => .error .NotFound
  | some bot =>
    let base :=
      "Bot: " ++ bot.name ++ "\n" ++
      "Status: " ++ (if regHas st.registry botId then "Running" else "Stopped") ++ "\n" ++
      "Created: " ++ bot.created_at ++ "\n"
    .ok (match bot.started_at with
         | some s => base ++ "Last started: " ++ s ++ "\n"
         | none => base)

/-- The records whose `username` field matches, in store order (the
`filter` at line 76). -/
def botsForOwner : List (String × BotRecord) → String → List BotRecord
  | [], _ => []
  | (_, b) :: rest, u =>
    if b.username = u then b :: botsForOwner rest u
    else botsForOwner rest u

/-- The per-record annotation at lines 77-80: the displayed `status` is
overridden by process-registry presence. -/
def annotate (st : SysState) (b : BotRecord) : BotRecord :=
  { b with status := if regHas st.registry b.id then "running" else "stopped" }

/-- GET `/api/bots/:username` (lines 70-86). -/
def listForOwner (username : String) (st : SysState) : List BotRecord :=
  (botsForOwner st.store username).map (annotate st)

/-- The registry-store correlation invariant: every id the Process
Registry holds has a Bot Record in the Record Store. -/
def RegSubStore (st : SysState) : Prop :=
  ∀ id, regHas st.registry id = true → (lookupBot st.store id).isSome = true

/-! ### Concrete states used by the witnesses -/

/-- A stopped Python bot as the upload handler would create it. -/
def sampleRec : BotRecord :=
  { id := "b1"
    name := "echo"
    username := "alice"
    file_path := "user_bots/alice/b1.py"
    file_type := "py"
    status := "stopped"
    created_at := "2024-01-01T00:00:00.000Z"
    started_at := none
    stopped_at := none
    cpu := 0
    memory := 0 }

/-- One stored bot, not running. -/
def sampleState : SysState :=
  { store := [("b1", sampleRec)]
    registry := []
    disk := ["user_bots/alice/b1.py"] }

/-- One stored bot, currently running. -/
def runningState : SysState :=
  { store := [("b1", sampleRec)]
    registry := ["b1"]
    disk := ["user_bots/alice/b1.py"] }

/-- The freshly started service: empty bots.json, no processes, no
uploaded files. -/
def emptyState : SysState :=
  { store := []
    registry := []
    disk := [] }

/-! ### Full JavaScript property-read semantics -/

/-- The enumerable-or-not members every plain object inherits from
`Object.prototype`; reading any of them through `bots[id]` or
`runningProcesses[id]` yields a truthy value (a function, or for
`__proto__` the prototype object itself). -/
def protoKeys : List String :=
  ["constructor", "hasOwnProperty", "isPrototypeOf", "propertyIsEnumerable",
   "toLocaleString", "toString", "valueOf", "__proto__",
   "__defineGetter__", "__defineSetter__", "__lookupGetter__",
   "__lookupSetter__"]

/-- Truthiness of `bots[botId]` as JavaScript evaluates it: an own key,
or an inherited `Object.prototype` member. -/
def botsTruthy (store : List (String × BotRecord)) (id : String) : Bool :=
  (lookupBot store id).isSome || protoKeys.contains id

/-- Truthiness of `runningProcesses[botId]` as JavaScript evaluates it. -/
def procsTruthy (reg : List String) (id : String) : Bool :=
  regHas reg id || protoKeys.contains id

/-- The `.name` of the inherited member read through `bots[botId]`, as
the logs template interpolates it at line 243: `constructor` is the
`Object` function, `__proto__` reads the prototype object (whose `.name`
is undefined and prints as the string undefined), every other member is
a function named like its key. -/
def protoMemberName (id : String) : String :=
  if id = "constructor" then "Object"
  else if id = "__proto__" then "undefined"
  else id

/-- `path.join(BOTS_DIR, username)` at line 46; join drops an empty
segment. -/
def userDir (u : String) : String :=
  if u = "" then "user_bots" else "user_bots/" ++ u

/-- GET `/api/bot/status/:botId` with full JS truthiness: the line 263
guard tests `bots[botId]` through the prototype chain, and line 268
liveness is the truthiness of `runningProcesses[botId]`.  For an
inherited member, `bot.cpu || 0` and `bot.memory || 0` read undefined
and give 0. -/
def statusBotJs (botId : String) (st : SysState) :
    Except ApiError (String × Nat × Nat) :=
  if botsTruthy st.store botId = false then .error .NotFound
  else
    let cpu := match lookupBot st.store botId with
      | some bot => bot.cpu
      | none => 0
    let mem := match lookupBot st.store botId with
      | some bot => bot.memory
      | none => 0
    .ok (if procsTruthy st.registry botId then "running" else "stopped",
         cpu, mem)

/-- POST `/api/bot/start/:botId` with full JS truthiness (lines 135 and
139).  For an id whose truthiness comes only from the prototype chain,
the registry read at line 139 is truthy too, so the request ends with
AlreadyRunning; the final branch (record store truthy without an own key
yet registry falsy) is unreachable, and in the source would be a spawn
of an undefined path caught as 500. -/
def startBotJs (botId now : String) (st : SysState) :
    Except ApiError String × SysState :=
  if botsTruthy st.store botId = false then (.error .NotFound, st)
  else if procsTruthy st.registry botId then (.error .AlreadyRunning, st)
  else
    match lookupBot st.store botId with
    | some bot =>
      (.ok (interpreterFor bot),
       { store := storeSet st.store botId
           { bot with status := "running", started_at := some now }
         registry := botId :: st.registry
         disk := st.disk })
    | none => (.error .Internal, st)

/-- POST `/api/bot/stop/:botId` with full JS truthiness.  When the
line 183 truthiness comes only from the prototype chain, line 187 calls
`.kill()` on a non-process and the TypeError is caught at line 196 as a
500.  With a real handle but no own record (unreachable under the
registry-store invariant), the line 190-192 field writes land on the
inherited member and the persisted store is unchanged. -/
def stopBotJs (botId now : String) (st : SysState) :
    Except ApiError Unit × SysState :=
  if botsTruthy st.store botId = false then (.error .NotFound, st)
  else if procsTruthy st.registry botId = false then (.error .NotRunning, st)
  else if regHas st.registry botId = false then (.error .Internal, st)
  else
    match lookupBot st.store botId with
    | some bot =>
      (.ok (),
       { store := storeSet st.store botId
           { bot with status := "stopped", stopped_at := some now }
         registry := regRemove st.registry botId
         disk := st.disk })
    | none => (.ok (), { st with registry := regRemove st.registry botId })

/-- DELETE `/api/bot/delete/:botId` with full JS truthiness.  A
prototype-only truthy registry read makes line 213's `.kill()` throw (a
caught 500) before any mutation.  Without an own record (unreachable
under the invariant), `fs.existsSync(undefined)` is false, deleting a
non-own store key is a no-op, and the request still succeeds. -/
def deleteBotJs (botId : String) (st : SysState) :
    Except ApiError Unit × SysState :=
  if botsTruthy st.store botId = false then (.error .NotFound, st)
  else if procsTruthy st.registry botId && !(regHas st.registry botId) then
    (.error .Internal, st)
  else
    match lookupBot st.store botId with
    | some bot =>
      (.ok (),
       { store := storeRemove st.store botId
         registry := regRemove st.registry botId
         disk := diskRemove st.disk bot.file_path })
    | none => (.ok (), { st with registry := regRemove st.registry botId })

/-- GET `/api/bot/logs/:botId` with full JS truthiness: for an inherited
member, the line 243-245 template interpolates the member's `.name` and
the undefined `created_at`, `started_at` is undefined (falsy) so the
line 247 block is skipped, and the line 244 liveness is the truthy
registry read. -/
def logsBotJs (botId : String) (st : SysState) : Except ApiError String :=
  if botsTruthy st.store botId = false then .error .NotFound
  else
    let nameStr := match lookupBot st.store botId with
      | some bot => bot.name
      | none => protoMemberName botId
    let createdStr := match lookupBot st.store botId with
      | some bot => bot.created_at
      | none => "undefined"
    let base :=
      "Bot: " ++ nameStr ++ "\n" ++
      "Status: " ++ (if procsTruthy st.registry botId then "Running" else "Stopped") ++ "\n" ++
      "Created: " ++ createdStr ++ "\n"
    let startedOpt := match lookupBot st.store botId with
      | some bot => bot.started_at
      | none => none
    .ok (match startedOpt with
         | some str => base ++ "Last started: " ++ str ++ "\n"
         | none => base)

/-- POST `/api/bot/upload` with the multer storage stage modelled
faithfully (lines 43-57, then 89-127).  With no file part, busboy runs
no storage callbacks and line 94 answers 400.  With a file part but no
username field, the destination callback's `path.join(BOTS_DIR,
undefined)` at line 46 throws before the handler runs: the request
fails with a propagated exception, not a 400, and no record is created.
With a file part and a username string, multer writes the file (a
missing bot_name interpolates as the string undefined in the name) and
the handler then rejects empty or missing fields with 400, leaving the
stray file on disk.  In the successful branch the owner is nonempty, so
the joined path equals `uploadFilepath`. -/
def uploadBotJs (username botName : Option String) (file : Option UploadFile)
    (ts : Nat) (now : String) (st : SysState) :
    Except ApiError String × SysState :=
  match file with
  | none => (.error .ValidationError, st)
  | some f =>
    match username with
    | none => (.error .Thrown, st)
    | some u =>
      match botName with
      | none =>
        (.error .ValidationError,
         { st with disk :=
             (userDir u ++ "/" ++ (makeBotId u "undefined" ts ++
               extname f.originalname)) :: st.disk })
      | some n =>
        if u = "" ∨ n = "" then
          (.error .ValidationError,
           { st with disk :=
               (userDir u ++ "/" ++ uploadFilename u n ts f) :: st.disk })
        else
          (.ok (uploadBotIdOf u n ts f),
           { store := storeSet st.store (uploadBotIdOf u n ts f)
               (uploadRecordOf u n ts f now)
             registry := st.registry
             disk := uploadFilepath u n ts f :: st.disk })

end BotHost

namespace BotHost

/-! ### Lemmas about the store, registry and disk primitives -/

theorem lookupBot_storeSet_self (s : List (String × BotRecord)) (id : String)
    (r : BotRecord) : lookupBot (storeSet s id r) id = some r := by
  induction s with
  | nil => simp [storeSet, lookupBot]
  | cons p rest ih =>
    obtain ⟨k, v⟩ := p
    by_cases h : k = id
    · simp [storeSet, h, lookupBot]
    · simp [storeSet, h, lookupBot, ih]

theorem lookupBot_storeSet_ne (s : List (String × BotRecord)) (id k : String)
    (r : BotRecord) (h : k ≠ id) :
    lookupBot (storeSet s id r) k = lookupBot s k := by
  have hik : ¬ id = k := fun hh => h hh.symm
  induction s with
  | nil => simp [storeSet, lookupBot, hik]
  | cons p rest ih =>
    obtain ⟨k', v⟩ := p
    by_cases h' : k' = id
    · subst h'
      simp [storeSet, lookupBot, hik]
    · simp only [storeSet, if_neg h', lookupBot]
      by_cases h'' : k' = k
      · simp [h'']
      · simp [h'', ih]

theorem isSome_lookupBot_storeSet (s : List (String × BotRecord)) (id k : String)
    (r : BotRecord) (h : (lookupBot s k).isSome = true) :
    (lookupBot (storeSet s id r) k).isSome = true := by
  by_cases hk : k = id
  · subst hk; simp [lookupBot_storeSet_self]
  · rw [lookupBot_storeSet_ne s id k r hk]; exact h

theorem lookupBot_storeRemove_self (s : List (String × BotRecord)) (id : String) :
    lookupBot (storeRemove s id) id = none := by
  induction s with
  | nil => simp [storeRemove, lookupBot]
  | cons p rest ih =>
    obtain ⟨k, v⟩ := p
    by_cases h : k = id
    · simp [storeRemove, h, ih]
    · simp [storeRemove, h, lookupBot, ih]

theorem lookupBot_storeRemove_ne (s : List (String × BotRecord)) (id k : String)
    (h : k ≠ id) : lookupBot (storeRemove s id) k = lookupBot s k := by
  have hik : ¬ id = k := fun hh => h hh.symm
  induction s with
  | nil => simp [storeRemove]
  | cons p rest ih =>
    obtain ⟨k', v⟩ := p
    by_cases h' : k' = id
    · subst h'
      simp [storeRemove, lookupBot, hik, ih]
    · simp only [storeRemove, if_neg h', lookupBot]
      by_cases h'' : k' = k
      · simp [h'']
      · simp [h'', ih]

theorem regHas_regRemove_self (reg : List String) (id : String) :
    regHas (regRemove reg id) id = false := by
  induction reg with
  | nil => simp [regRemove, regHas]
  | cons x rest ih =>
    by_cases h : x = id
    · simp [regRemove, h, ih]
    · simp [regRemove, h, regHas, ih]

theorem regHas_regRemove_imp (reg : List String) (id k : String)
    (h : regHas (regRemove reg id) k = true) :
    k ≠ id ∧ regHas reg k = true := by
  induction reg with
  | nil => simp [regRemove, regHas] at h
  | cons x rest ih =>
    by_cases hx : x = id
    · rw [regRemove, if_pos hx] at h
      obtain ⟨h1, h2⟩ := ih h
      refine ⟨h1, ?_⟩
      rw [regHas]
      split <;> simp [h2]
    · rw [regRemove, if_neg hx] at h
      rw [regHas] at h
      by_cases hk : x = k
      · subst hk
        exact ⟨fun hh => hx hh, by rw [regHas, if_pos rfl]⟩
      · rw [if_neg hk] at h
        obtain ⟨h1, h2⟩ := ih h
        exact ⟨h1, by rw [regHas, if_neg hk]; exact h2⟩

theorem diskHas_diskRemove_self (d : List String) (p : String) :
    diskHas (diskRemove d p) p = false := by
  induction d with
  | nil => simp [diskRemove, diskHas]
  | cons x rest ih =>
    by_cases h : x = p
    · simp [diskRemove, h, ih]
    · simp [diskRemove, h, diskHas, ih]

theorem mem_botsForOwner (s : List (String × BotRecord)) (id u : String)
    (r : BotRecord) (hl : lookupBot s id = some r) (hu : r.username = u) :
    r ∈ botsForOwner s u := by
  induction s with
  | nil => simp [lookupBot] at hl
  | cons p rest ih =>
    obtain ⟨k, v⟩ := p
    rw [lookupBot] at hl
    by_cases h : k = id
    · rw [if_pos h] at hl
      injection hl with hv
      subst hv
      simp [botsForOwner, hu]
    · rw [if_neg h] at hl
      rw [botsForOwner]
      split
      · exact List.mem_cons_of_mem _ (ih hl)
      · exact ih hl

end BotHost

namespace BotHost

/-! ### The claims -/

/-- Claim C2: on a bot with a Record, start fails with AlreadyRunning
(HTTP 400) and changes nothing when the Process Registry already holds
the id; when it does not, start succeeds and an immediate second start
fails with AlreadyRunning, leaving the post-start state unchanged. -/
theorem C2_start_twice (st : SysState) (id now now2 : String) (r : BotRecord)
    (hrec : lookupBot st.store id = some r) :
    (regHas st.registry id = true →
      startBot id now st = (.error .AlreadyRunning, st) ∧
      httpStatus .AlreadyRunning = 400) ∧
    (regHas st.registry id = false →
      startBot id now st = (.ok (interpreterFor r), (startBot id now st).2) ∧
      startBot id now2 (startBot id now st).2 =
        (.error .AlreadyRunning, (startBot id now st).2)) := by
  constructor
  · intro hreg
    exact ⟨by simp [startBot, hrec, hreg], rfl⟩
  · intro hreg
    have h1 : startBot id now st =
        (.ok (interpreterFor r),
         { store := storeSet st.store id
             { r with status := "running", started_at := some now }
           registry := id :: st.registry
           disk := st.disk }) := by
      simp [startBot, hrec, hreg]
    rw [h1]
    refine ⟨rfl, ?_⟩
    simp [startBot, lookupBot_storeSet_self, regHas]

/-- Claim C2, witness: starting the sample bot twice. -/
theorem C2_witness :
    startBot "b1" "t1" sampleState =
      (.ok (interpreterFor sampleRec), (startBot "b1" "t1" sampleState).2) ∧
    startBot "b1" "t2" (startBot "b1" "t1" sampleState).2 =
      (.error .AlreadyRunning, (startBot "b1" "t1" sampleState).2) :=
  (C2_start_twice sampleState "b1" "t1" "t2" sampleRec rfl).2 rfl

/-- Claim C3: on a bot with a Record, stop fails with NotRunning (HTTP
400) and changes nothing when the Process Registry lacks the id; when it
holds the id, stop succeeds, the id leaves the registry immediately, and
the persisted record gets status stopped with the new stopped_at. -/
theorem C3_stop_spec (st : SysState) (id now : String) (r : BotRecord)
    (hrec : lookupBot st.store id = some r) :
    (regHas st.registry id = false →
      stopBot id now st = (.error .NotRunning, st) ∧
      httpStatus .NotRunning = 400) ∧
    (regHas st.registry id = true →
      stopBot id now st =
        (.ok (),
         { store := storeSet st.store id
             { r with status := "stopped", stopped_at := some now }
           registry := regRemove st.registry id
           disk := st.disk }) ∧
      regHas (stopBot id now st).2.registry id = false ∧
      lookupBot (stopBot id now st).2.store id =
        some { r with status := "stopped", stopped_at := some now }) := by
  constructor
  · intro hreg
    exact ⟨by simp [stopBot, hrec, hreg], rfl⟩
  · intro hreg
    have h1 : stopBot id now st =
        (.ok (),
         { store := storeSet st.store id
             { r with status := "stopped", stopped_at := some now }
           registry := regRemove st.registry id
           disk := st.disk }) := by
      simp [stopBot, hrec, hreg]
    refine ⟨h1, ?_, ?_⟩
    · rw [h1]
      exact regHas_regRemove_self _ _
    · rw [h1]
      exact lookupBot_storeSet_self _ _ _

/-- Claim C3, witness: stopping the running sample bot. -/
theorem C3_witness :
    stopBot "b1" "t" runningState =
      (.ok (),
       { store := storeSet runningState.store "b1"
           { sampleRec with status := "stopped", stopped_at := some "t" }
         registry := regRemove runningState.registry "b1"
         disk := runningState.disk }) ∧
    regHas (stopBot "b1" "t" runningState).2.registry "b1" = false ∧
    lookupBot (stopBot "b1" "t" runningState).2.store "b1" =
      some { sampleRec with status := "stopped", stopped_at := some "t" } :=
  (C3_stop_spec runningState "b1" "t" sampleRec rfl).2 rfl

/-- Claim C5: delete on a bot with a Record always succeeds: the id is
deregistered, the backing file is gone from disk afterwards whether or
not it was present, the record is gone from the store, and subsequent
start, stop, status and logs all fail with NotFound. -/
theorem C5_delete_spec (st : SysState) (id now : String) (r : BotRecord)
    (hrec : lookupBot st.store id = some r) :
    deleteBot id st = (.ok (), (deleteBot id st).2) ∧
    lookupBot (deleteBot id st).2.store id = none ∧
    regHas (deleteBot id st).2.registry id = false ∧
    diskHas (deleteBot id st).2.disk r.file_path = false ∧
    startBot id now (deleteBot id st).2 = (.error .NotFound, (deleteBot id st).2) ∧
    stopBot id now (deleteBot id st).2 = (.error .NotFound, (deleteBot id st).2) ∧
    statusBot id (deleteBot id st).2 = .error .NotFound ∧
    logsBot id (deleteBot id st).2 = .error .NotFound := by
  have h1 : deleteBot id st =
      (.ok (),
       { store := storeRemove st.store id
         registry := regRemove st.registry id
         disk := diskRemove st.disk r.file_path }) := by
    simp [deleteBot, hrec]
  rw [h1]
  refine ⟨rfl, lookupBot_storeRemove_self _ _, regHas_regRemove_self _ _,
    diskHas_diskRemove_self _ _, ?_, ?_, ?_, ?_⟩ <;>
    simp [startBot, stopBot, statusBot, logsBot, lookupBot_storeRemove_self]

/-- Claim C5, witness: deleting the running sample bot. -/
theorem C5_witness :
    deleteBot "b1" runningState = (.ok (), (deleteBot "b1" runningState).2) ∧
    lookupBot (deleteBot "b1" runningState).2.store "b1" = none ∧
    regHas (deleteBot "b1" runningState).2.registry "b1" = false ∧
    diskHas (deleteBot "b1" runningState).2.disk sampleRec.file_path = false ∧
    startBot "b1" "t" (deleteBot "b1" runningState).2 =
      (.error .NotFound, (deleteBot "b1" runningState).2) ∧
    stopBot "b1" "t" (deleteBot "b1" runningState).2 =
      (.error .NotFound, (deleteBot "b1" runningState).2) ∧
    statusBot "b1" (deleteBot "b1" runningState).2 = .error .NotFound ∧
    logsBot "b1" (deleteBot "b1" runningState).2 = .error .NotFound :=
  C5_delete_spec runningState "b1" "t" sampleRec rfl

/-- Claim C7: a successful start launches the interpreter chosen solely
from the record's file_type: py maps to python3, anything else to node,
and any two records agreeing on file_type get the same interpreter. -/
theorem C7_start_interpreter (st st1 : SysState) (id now cmd : String)
    (r : BotRecord) (hrec : lookupBot st.store id = some r)
    (hok : startBot id now st = (.ok cmd, st1)) :
    cmd = interpreterFor r ∧
    (r.file_type = "py" → cmd = "python3") ∧
    (r.file_type ≠ "py" → cmd = "node") ∧
    (∀ b b' : BotRecord, b.file_type = b'.file_type →
      interpreterFor b = interpreterFor b') := by
  simp only [startBot, hrec] at hok
  by_cases hreg : regHas st.registry id
  · rw [if_pos hreg] at hok
    simp at hok
  · rw [if_neg hreg] at hok
    simp only [Prod.mk.injEq, Except.ok.injEq] at hok
    obtain ⟨h1, h2⟩ := hok
    subst h1
    refine ⟨rfl, ?_, ?_, ?_⟩
    · intro hp
      simp [interpreterFor, hp]
    · intro hp
      simp [interpreterFor, hp]
    · intro b b' hb
      simp [interpreterFor, hb]

/-- Claim C7, witness: the sample Python bot launches python3. -/
theorem C7_witness : "python3" = interpreterFor sampleRec :=
  (C7_start_interpreter sampleState (startBot "b1" "t" sampleState).2 "b1" "t"
    "python3" sampleRec rfl rfl).1

/-- Claim C1: after a successful start, running the exit observer for
the id removes it from the Process Registry but leaves the Record Store
and the disk untouched: the persisted record still carries status
running (started_at included, no field modified), while the status
endpoint now reports liveness stopped. -/
theorem C1_exit_observer (st st1 : SysState) (id now cmd : String)
    (r : BotRecord) (hrec : lookupBot st.store id = some r)
    (hok : startBot id now st = (.ok cmd, st1)) :
    (exitObserver id st1).store = st1.store ∧
    (exitObserver id st1).disk = st1.disk ∧
    regHas (exitObserver id st1).registry id = false ∧
    lookupBot (exitObserver id st1).store id =
      some { r with status := "running", started_at := some now } ∧
    ({ r with status := "running", started_at := some now } : BotRecord).status
      = "running" ∧
    statusBot id (exitObserver id st1) = .ok ("stopped", r.cpu, r.memory) := by
  simp only [startBot, hrec] at hok
  by_cases hreg : regHas st.registry id
  · rw [if_pos hreg] at hok
    simp at hok
  · rw [if_neg hreg] at hok
    simp only [Prod.mk.injEq, Except.ok.injEq] at hok
    obtain ⟨h1, h2⟩ := hok
    subst h2
    refine ⟨rfl, rfl, regHas_regRemove_self _ _, ?_, rfl, ?_⟩
    · simp [exitObserver, lookupBot_storeSet_self]
    · simp [statusBot, exitObserver, lookupBot_storeSet_self,
        regHas_regRemove_self]

/-- Claim C1, witness: start the sample bot, let the process exit. -/
theorem C1_witness :
    regHas (exitObserver "b1" (startBot "b1" "t" sampleState).2).registry "b1"
      = false ∧
    lookupBot (exitObserver "b1" (startBot "b1" "t" sampleState).2).store "b1" =
      some { sampleRec with status := "running", started_at := some "t" } ∧
    statusBot "b1" (exitObserver "b1" (startBot "b1" "t" sampleState).2) =
      .ok ("stopped", sampleRec.cpu, sampleRec.memory) := by
  obtain ⟨-, -, h3, h4, -, h6⟩ :=
    C1_exit_observer sampleState (startBot "b1" "t" sampleState).2 "b1" "t"
      "python3" sampleRec rfl rfl
  exact ⟨h3, h4, h6⟩

end BotHost

namespace BotHost

/-- Claim C8: a successful upload with owner o and name n returns the
derived bot id and stores under it a record with status stopped, the
creation timestamp, owner o and name n; that record appears in the
owner's listing, annotated with liveness derived from Process Registry
presence. -/
theorem C8_upload_success (o n : String) (f : UploadFile) (ts : Nat)
    (now : String) (st : SysState) (ho : o ≠ "") (hn : n ≠ "") :
    (uploadBot (some o) (some n) (some f) ts now st).1 =
      .ok (uploadBotIdOf o n ts f) ∧
    lookupBot (uploadBot (some o) (some n) (some f) ts now st).2.store
      (uploadBotIdOf o n ts f) = some (uploadRecordOf o n ts f now) ∧
    (uploadRecordOf o n ts f now).status = "stopped" ∧
    (uploadRecordOf o n ts f now).created_at = now ∧
    (uploadRecordOf o n ts f now).username = o ∧
    (uploadRecordOf o n ts f now).name = n ∧
    annotate (uploadBot (some o) (some n) (some f) ts now st).2
        (uploadRecordOf o n ts f now) ∈
      listForOwner o (uploadBot (some o) (some n) (some f) ts now st).2 := by
  have hcond : ¬(o = "" ∨ n = "") := by
    rintro (hh | hh)
    · exact ho hh
    · exact hn hh
  have hu : uploadBot (some o) (some n) (some f) ts now st =
      (.ok (uploadBotIdOf o n ts f),
       { store := storeSet st.store (uploadBotIdOf o n ts f)
           (uploadRecordOf o n ts f now)
         registry := st.registry
         disk := uploadFilepath o n ts f :: st.disk }) := by
    simp only [uploadBot]
    rw [if_neg hcond]
  rw [hu]
  refine ⟨rfl, lookupBot_storeSet_self _ _ _, rfl, rfl, rfl, rfl, ?_⟩
  simp only [listForOwner]
  exact List.mem_map_of_mem _
    (mem_botsForOwner _ _ _ _ (lookupBot_storeSet_self _ _ _) rfl)

/-- Claim C8, witness: uploading a Python bot for alice into the sample
state. -/
theorem C8_witness :
    (uploadBot (some "alice") (some "echoBot") (some ⟨"bot.py"⟩) 0 "2024"
        sampleState).1 = .ok (uploadBotIdOf "alice" "echoBot" 0 ⟨"bot.py"⟩) ∧
    lookupBot (uploadBot (some "alice") (some "echoBot") (some ⟨"bot.py"⟩) 0
        "2024" sampleState).2.store (uploadBotIdOf "alice" "echoBot" 0 ⟨"bot.py"⟩) =
      some (uploadRecordOf "alice" "echoBot" 0 ⟨"bot.py"⟩ "2024") ∧
    (uploadRecordOf "alice" "echoBot" 0 ⟨"bot.py"⟩ "2024").status = "stopped" ∧
    (uploadRecordOf "alice" "echoBot" 0 ⟨"bot.py"⟩ "2024").created_at = "2024" ∧
    (uploadRecordOf "alice" "echoBot" 0 ⟨"bot.py"⟩ "2024").username = "alice" ∧
    (uploadRecordOf "alice" "echoBot" 0 ⟨"bot.py"⟩ "2024").name = "echoBot" ∧
    annotate (uploadBot (some "alice") (some "echoBot") (some ⟨"bot.py"⟩) 0
        "2024" sampleState).2 (uploadRecordOf "alice" "echoBot" 0 ⟨"bot.py"⟩ "2024") ∈
      listForOwner "alice" (uploadBot (some "alice") (some "echoBot")
        (some ⟨"bot.py"⟩) 0 "2024" sampleState).2 :=
  C8_upload_success "alice" "echoBot" ⟨"bot.py"⟩ 0 "2024" sampleState
    (by decide) (by decide)

/-- Claim C10: if every registered id has a record, the same holds after
any upload, start, stop, delete, or exit observation (status and logs do
not change state): start registers only after the record check, delete
deregisters before removing the record, and the others never register. -/
theorem C10_registry_subset_store (st : SysState) (h : RegSubStore st) :
    (∀ u n f ts now, RegSubStore (uploadBot u n f ts now st).2) ∧
    (∀ id now, RegSubStore (startBot id now st).2) ∧
    (∀ id now, RegSubStore (stopBot id now st).2) ∧
    (∀ id, RegSubStore (deleteBot id st).2) ∧
    (∀ id, RegSubStore (exitObserver id st)) := by
  refine ⟨?_, ?_, ?_, ?_, ?_⟩
  · intro u n f ts now
    cases u with
    | none => simpa [uploadBot] using h
    | some u' =>
      cases n with
      | none => simpa [uploadBot] using h
      | some n' =>
        cases f with
        | none => simpa [uploadBot] using h
        | some f' =>
          by_cases hc : u' = "" ∨ n' = ""
          · have hu : (uploadBot (some u') (some n') (some f') ts now st).2 = st := by
              simp only [uploadBot]
              rw [if_pos hc]
            rw [hu]
            exact h
          · have hu : (uploadBot (some u') (some n') (some f') ts now st).2 =
                { store := storeSet st.store (uploadBotIdOf u' n' ts f')
                    (uploadRecordOf u' n' ts f' now)
                  registry := st.registry
                  disk := uploadFilepath u' n' ts f' :: st.disk } := by
              simp only [uploadBot]
              rw [if_neg hc]
            rw [hu]
            intro k hk
            exact isSome_lookupBot_storeSet _ _ _ _ (h k hk)
  · intro id now
    cases hb : lookupBot st.store id with
    | none => simpa [startBot, hb] using h
    | some bot =>
      by_cases hreg : regHas st.registry id
      · simpa [startBot, hb, hreg] using h
      · have hs : (startBot id now st).2 =
            { store := storeSet st.store id
                { bot with status := "running", started_at := some now }
              registry := id :: st.registry
              disk := st.disk } := by
          simp [startBot, hb, hreg]
        rw [hs]
        intro k hk
        rw [regHas] at hk
        by_cases hik : id = k
        · subst hik
          simp [lookupBot_storeSet_self]
        · rw [if_neg hik] at hk
          exact isSome_lookupBot_storeSet _ _ _ _ (h k hk)
  · intro id now
    cases hb : lookupBot st.store id with
    | none => simpa [stopBot, hb] using h
    | some bot =>
      by_cases hreg : regHas st.registry id
      · have hs : (stopBot id now st).2 =
            { store := storeSet st.store id
                { bot with status := "stopped", stopped_at := some now }
              registry := regRemove st.registry id
              disk := st.disk } := by
          simp [stopBot, hb, hreg]
        rw [hs]
        intro k hk
        obtain ⟨h1, h2⟩ := regHas_regRemove_imp _ _ _ hk
        exact isSome_lookupBot_storeSet _ _ _ _ (h k h2)
      · simpa [stopBot, hb, hreg] using h
  · intro id
    cases hb : lookupBot st.store id with
    | none => simpa [deleteBot, hb] using h
    | some bot =>
      have hs : (deleteBot id st).2 =
          { store := storeRemove st.store id
            registry := regRemove st.registry id
            disk := diskRemove st.disk bot.file_path } := by
        simp [deleteBot, hb]
      rw [hs]
      intro k hk
      obtain ⟨h1, h2⟩ := regHas_regRemove_imp _ _ _ hk
      have h3 : (lookupBot (storeRemove st.store id) k).isSome = true := by
        rw [lookupBot_storeRemove_ne _ _ _ h1]
        exact h k h2
      exact h3
  · intro id k hk
    obtain ⟨h1, h2⟩ := regHas_regRemove_imp st.registry id k hk
    exact h k h2

/-- Claim C10, witness: after starting the sample bot, the id the
registry holds still has a record. -/
theorem C10_witness :
    (lookupBot (startBot "b1" "t" sampleState).2.store "b1").isSome = true :=
  (C10_registry_subset_store sampleState
      (fun k hk => by simp [sampleState, regHas] at hk)).2.1 "b1" "t" "b1"
    (by decide)

end BotHost

namespace BotHost

/-! ### Lemmas about the id derivation strings -/

theorem string_mk_data (s : String) : String.mk s.data = s := rfl

theorem digitChar_isDigit (m : Nat) (h : m < 10) :
    (digitChar m).isDigit = true := by
  interval_cases m <;> decide

theorem natToCharListAux_digits (fuel : Nat) :
    ∀ n c, c ∈ natToCharListAux fuel n → c.isDigit = true := by
  induction fuel with
  | zero => intro n c hc; simp [natToCharListAux] at hc
  | succ fuel ih =>
    intro n c hc
    rw [natToCharListAux] at hc
    by_cases hn : n < 10
    · rw [if_pos hn] at hc
      simp only [List.mem_singleton] at hc
      subst hc
      exact digitChar_isDigit n hn
    · rw [if_neg hn] at hc
      rcases List.mem_append.1 hc with hc | hc
      · exact ih (n / 10) c hc
      · simp only [List.mem_singleton] at hc
        subst hc
        exact digitChar_isDigit (n % 10) (Nat.mod_lt n (by omega))

theorem natToCharList_digits (n : Nat) :
    ∀ c ∈ natToCharList n, c.isDigit = true :=
  fun c hc => natToCharListAux_digits (n + 1) n c hc

theorem natToCharList_ne_nil (n : Nat) : natToCharList n ≠ [] := by
  rw [natToCharList, natToCharListAux]
  by_cases hn : n < 10
  · rw [if_pos hn]
    simp
  · rw [if_neg hn]
    simp

theorem isWsChar_eq_false_of_isDigit (c : Char) (h : c.isDigit = true) :
    isWsChar c = false := by
  cases hc : isWsChar c with
  | false => rfl
  | true =>
    exfalso
    simp only [isWsChar, Bool.or_eq_true, decide_eq_true_eq] at hc
    rcases hc with ((((h1 | h1) | h1) | h1) | h1) | h1 <;> subst h1 <;> simp at h

theorem ne_dot_of_isDigit (c : Char) (h : c.isDigit = true) : ¬ c = '.' := by
  intro h1
  subst h1
  simp at h

theorem squashAux_eq_self (cs : List Char)
    (h : ∀ c ∈ cs, isWsChar c = false) : ∀ b, squashAux b cs = cs := by
  induction cs with
  | nil => intro b; rfl
  | cons c rest ih =>
    intro b
    have hc : isWsChar c = false := h c (List.mem_cons_self _ _)
    rw [squashAux, hc]
    simp only [Bool.false_eq_true, if_false]
    rw [ih (fun x hx => h x (List.mem_cons_of_mem _ hx)) false]

theorem squashWs_eq_self (s : String)
    (h : ∀ c ∈ s.data, isWsChar c = false) : squashWs s = s := by
  rw [squashWs, squashAux_eq_self s.data h false, string_mk_data]

end BotHost

namespace BotHost

theorem data_append_py (s : String) :
    (s ++ ".py").data = s.data ++ ['.', 'p', 'y'] := by
  rw [String.data_append]

theorem extname_append_py (s : String) (hne : s.data ≠ []) :
    extname (s ++ ".py") = ".py" := by
  have hdata : (s ++ ".py").data = s.data ++ ['.', 'p', 'y'] := data_append_py s
  have hrev : (s.data ++ ['.', 'p', 'y']).reverse =
      'y' :: 'p' :: '.' :: s.data.reverse := by
    rw [List.reverse_append]
    rfl
  have htake : List.takeWhile (fun c => decide (c ≠ '.'))
      ('y' :: 'p' :: '.' :: s.data.reverse) = ['y', 'p'] := rfl
  have hlen : 0 < s.data.length := List.length_pos.2 hne
  have hcond : ¬((['y', 'p'] : List Char).length + 1 ≥
      (s.data ++ ['.', 'p', 'y']).length) := by
    rw [List.length_append]
    simp only [List.length_cons, List.length_nil]
    omega
  simp only [extname, hdata, hrev, htake]
  rw [if_neg hcond]
  decide

theorem stripExt_append_py (s : String) (hne : s.data ≠ []) :
    stripExt (s ++ ".py") ".py" = s := by
  have hdata : (s ++ ".py").data = s.data ++ ['.', 'p', 'y'] := data_append_py s
  have hpy : (".py" : String).data = ['.', 'p', 'y'] := rfl
  have hlen : 0 < s.data.length := List.length_pos.2 hne
  have hsub : (s.data ++ ['.', 'p', 'y']).length -
      (['.', 'p', 'y'] : List Char).length = s.data.length := by
    rw [List.length_append]
    simp
  have hcond : (['.', 'p', 'y'] : List Char).length ≤
        (s.data ++ ['.', 'p', 'y']).length ∧
      (['.', 'p', 'y'] : List Char) ≠ [] ∧
      s.data ++ ['.', 'p', 'y'] ≠ ['.', 'p', 'y'] ∧
      (s.data ++ ['.', 'p', 'y']).drop ((s.data ++ ['.', 'p', 'y']).length -
        (['.', 'p', 'y'] : List Char).length) = ['.', 'p', 'y'] := by
    refine ⟨?_, by simp, ?_, ?_⟩
    · rw [List.length_append]
      simp only [List.length_cons, List.length_nil]
      omega
    · intro heq
      have h2 := congrArg List.length heq
      rw [List.length_append] at h2
      simp only [List.length_cons, List.length_nil] at h2
      omega
    · rw [hsub]
      exact List.drop_left _ _
  simp only [stripExt, stripSuffixList, hdata, hpy]
  rw [if_pos hcond, hsub, List.take_left, string_mk_data]

theorem aliceId_data_ne_nil (ts : Nat) :
    ("alice_echoBot_" ++ natToString ts).data ≠ [] := by
  rw [String.data_append]
  intro h
  rcases List.append_eq_nil.1 h with ⟨h1, h2⟩
  exact (by decide : ("alice_echoBot_" : String).data ≠ []) h1

theorem makeBotId_alice (ts : Nat) :
    makeBotId "alice" "echoBot" ts = "alice_echoBot_" ++ natToString ts := by
  have h1 : ("alice" ++ "_" ++ "echoBot" ++ "_" : String) = "alice_echoBot_" := by
    decide
  rw [makeBotId, h1]
  apply squashWs_eq_self
  intro c hc
  rw [String.data_append] at hc
  rcases List.mem_append.1 hc with hc | hc
  · exact (by decide :
      ∀ c ∈ ("alice_echoBot_" : String).data, isWsChar c = false) c hc
  · exact isWsChar_eq_false_of_isDigit c (natToCharList_digits ts c hc)

/-- Claim C9: for every timestamp, uploading with owner alice, name
echoBot and a .py file yields exactly the id alice_echoBot_ followed by
the decimal rendering of the timestamp: a nonempty all-digit suffix,
and no whitespace anywhere in the id. -/
theorem C9_upload_id_shape (ts : Nat) (now : String) (st : SysState) :
    uploadBotIdOf "alice" "echoBot" ts ⟨"bot.py"⟩ =
      "alice_echoBot_" ++ natToString ts ∧
    (uploadBot (some "alice") (some "echoBot") (some ⟨"bot.py"⟩) ts now st).1 =
      .ok ("alice_echoBot_" ++ natToString ts) ∧
    (∀ c ∈ (natToString ts).data, c.isDigit = true) ∧
    (natToString ts).data ≠ [] ∧
    (∀ c ∈ ("alice_echoBot_" ++ natToString ts).data, isWsChar c = false) := by
  have hid : uploadBotIdOf "alice" "echoBot" ts ⟨"bot.py"⟩ =
      "alice_echoBot_" ++ natToString ts := by
    have hext : extname (UploadFile.mk "bot.py").originalname = ".py" := by
      decide
    rw [uploadBotIdOf, uploadFilename, makeBotId_alice, hext,
      extname_append_py _ (aliceId_data_ne_nil ts),
      stripExt_append_py _ (aliceId_data_ne_nil ts)]
  refine ⟨hid, ?_, natToCharList_digits ts, natToCharList_ne_nil ts, ?_⟩
  · simp only [uploadBot]
    rw [if_neg (by simp), hid]
  · intro c hc
    rw [String.data_append] at hc
    rcases List.mem_append.1 hc with hc | hc
    · exact (by decide :
        ∀ c ∈ ("alice_echoBot_" : String).data, isWsChar c = false) c hc
    · exact isWsChar_eq_false_of_isDigit c (natToCharList_digits ts c hc)

end BotHost

namespace BotHost

/-- Claim C4 (code bug): the claim — every id without a Bot Record gets
NotFound from all five operations — is the guards' evident intent, but
JavaScript property reads see the truthy inherited Object.prototype
members.  At the freshly started service the id constructor has no
record, yet status answers 200 running with zero cpu/memory, start
answers AlreadyRunning, stop and delete end in the caught TypeError
from calling kill() on the inherited member (500), and logs answers 200
with a summary of the inherited member — none of them NotFound. -/
theorem C4_proto_key_not_notFound :
    lookupBot emptyState.store "constructor" = none ∧
    statusBotJs "constructor" emptyState = .ok ("running", 0, 0) ∧
    startBotJs "constructor" "t" emptyState =
      (.error .AlreadyRunning, emptyState) ∧
    stopBotJs "constructor" "t" emptyState = (.error .Internal, emptyState) ∧
    deleteBotJs "constructor" emptyState = (.error .Internal, emptyState) ∧
    logsBotJs "constructor" emptyState =
      .ok ("Bot: Object\nStatus: Running\nCreated: undefined\n") ∧
    ApiError.AlreadyRunning ≠ ApiError.NotFound ∧
    ApiError.Internal ≠ ApiError.NotFound ∧
    httpStatus .Internal = 500 :=
  ⟨rfl, rfl, rfl, rfl, rfl, rfl, by decide, by decide, rfl⟩

/-- Claim C6 counterexample: an upload carrying a file part but no
owner identifier does not produce the claimed 400 ValidationError —
the destination callback throws at line 46 before the handler's check
runs (no record is created either way). -/
theorem C6_counterexample :
    (uploadBotJs none (some "echoBot") (some ⟨"bot.py"⟩) 0 "t" emptyState).1 =
      .error .Thrown ∧
    ApiError.Thrown ≠ ApiError.ValidationError ∧
    (uploadBotJs none (some "echoBot") (some ⟨"bot.py"⟩) 0 "t" emptyState).2 =
      emptyState ∧
    httpStatus .Thrown = 500 :=
  ⟨rfl, by decide, rfl, rfl⟩

/-- Claim C6 (amended): an upload whose bot name or file is missing, or
whose owner or name field is present but empty, fails with
ValidationError (HTTP 400, not 500); but when a file part is present
and the owner field is entirely absent, the multer destination callback
throws before the handler's check, so that request fails with a
propagated exception instead of the 400.  In every such case no Bot
Record is created and the Process Registry is untouched. -/
theorem C6_amended (u n : Option String) (f : Option UploadFile)
    (ts : Nat) (now : String) (st : SysState)
    (h : u = none ∨ u = some "" ∨ n = none ∨ n = some "" ∨ f = none) :
    (¬(u = none ∧ f.isSome = true) →
      (uploadBotJs u n f ts now st).1 = .error .ValidationError) ∧
    (u = none → f.isSome = true →
      (uploadBotJs u n f ts now st).1 = .error .Thrown) ∧
    (uploadBotJs u n f ts now st).2.store = st.store ∧
    (uploadBotJs u n f ts now st).2.registry = st.registry ∧
    httpStatus .ValidationError = 400 ∧ httpStatus .ValidationError ≠ 500 := by
  cases f with
  | none =>
    exact ⟨fun _ => rfl, fun _ hf => by simp at hf, rfl, rfl, rfl, by decide⟩
  | some f' =>
    cases u with
    | none =>
      exact ⟨fun hc => absurd ⟨rfl, rfl⟩ hc, fun _ _ => rfl, rfl, rfl, rfl,
        by decide⟩
    | some u' =>
      cases n with
      | none =>
        exact ⟨fun _ => rfl,
          fun hu _ => absurd hu (Option.some_ne_none u'), rfl, rfl, rfl,
          by decide⟩
      | some n' =>
        have hcond : u' = "" ∨ n' = "" := by
          rcases h with h | h | h | h | h
          · exact absurd h (Option.some_ne_none u')
          · exact Or.inl (Option.some.inj h)
          · exact absurd h (Option.some_ne_none n')
          · exact Or.inr (Option.some.inj h)
          · exact absurd h (Option.some_ne_none f')
        have hres : uploadBotJs (some u') (some n') (some f') ts now st =
            (.error .ValidationError,
             { st with disk :=
                 (userDir u' ++ "/" ++ uploadFilename u' n' ts f') :: st.disk }) := by
          simp only [uploadBotJs]
          rw [if_pos hcond]
        rw [hres]
        exact ⟨fun _ => rfl,
          fun hu _ => absurd hu (Option.some_ne_none u'), rfl, rfl, rfl,
          by decide⟩

/-- Claim C6 (amended), witness: upload with the bot name missing but a
file and owner present — rejected with the 400 ValidationError, record
store and registry untouched. -/
theorem C6_amended_witness :
    (uploadBotJs (some "alice") none (some ⟨"bot.py"⟩) 0 "t" sampleState).1 =
      .error .ValidationError ∧
    (uploadBotJs (some "alice") none (some ⟨"bot.py"⟩) 0 "t" sampleState).2.store =
      sampleState.store ∧
    (uploadBotJs (some "alice") none (some ⟨"bot.py"⟩) 0 "t" sampleState).2.registry =
      sampleState.registry ∧
    httpStatus .ValidationError = 400 := by
  obtain ⟨h1, h2, h3, h4, h5, h6⟩ :=
    C6_amended (some "alice") none (some ⟨"bot.py"⟩) 0 "t" sampleState
      (Or.inr (Or.inr (Or.inl rfl)))
  exact ⟨h1 (fun hc => Option.some_ne_none "alice" hc.1), h3, h4, h5⟩

end BotHost
